import Mathlib

/-!
Verification development for the aurora-webgl-landing physics layer.

The definitions below are shallow embeddings of functions from
src/src/physics.ts, src/src/main.ts and the unnamed physics variants
(src/unnamed/part_002 .. part_005).  JavaScript numbers are modelled as
rationals.  Math.sin, an external builtin, is abstracted as an explicit
function parameter wherever the source reads it; JavaScript strings are
modelled as lists of characters.
-/

namespace Aurora

/-- The clamp helper injected into createPhysicsLayer
(part_002 line 30: const clamp = (v, a, b) => Math.max(a, Math.min(b, v))). -/
def clampQ (v a b : ℚ) : ℚ := max a (min b v)

/-- The same clamp applied to integer-valued numbers (the rounded density
count in setDensity stays integral, so it is modelled on ℤ). -/
def clampZ (v a b : ℤ) : ℤ := max a (min b v)

/-- JavaScript Math.round: round half toward positive infinity. -/
def jsRound (x : ℚ) : ℤ := ⌊x + 1 / 2⌋

/-- JavaScript remainder x % 1: x minus its truncation toward zero,
floor for nonnegative x and ceiling for negative x.  The result keeps the
sign of x and always lies in the open interval (-1, 1). -/
def jsMod1 (x : ℚ) : ℚ := if 0 ≤ x then x - ⌊x⌋ else x - ⌈x⌉

/-- sCurve from main.ts line 91: the smoothstep easing x * x * (3 - 2 * x). -/
def sCurve (x : ℚ) : ℚ := x * x * (3 - 2 * x)

/-- hash from main.ts line 92: (Math.sin(n) * 43758.5453123) % 1.
Math.sin is the abstracted parameter s. -/
def hashN (s : ℚ → ℚ) (n : ℚ) : ℚ := jsMod1 (s n * (437585453123 / 10000000))

/-- noise2 from main.ts lines 93-104 (identical in part_002 lines 36-47):
bilinear interpolation of four hashed lattice corners with sCurve easing. -/
def noise2 (s : ℚ → ℚ) (x y : ℚ) : ℚ :=
  let xi : ℚ := (⌊x⌋ : ℤ)
  let yi : ℚ := (⌊y⌋ : ℤ)
  let xf := x - xi
  let yf := y - yi
  let a := hashN s (xi * (1271 / 10) + yi * (3117 / 10))
  let b := hashN s ((xi + 1) * (1271 / 10) + yi * (3117 / 10))
  let c := hashN s (xi * (1271 / 10) + (yi + 1) * (3117 / 10))
  let d := hashN s ((xi + 1) * (1271 / 10) + (yi + 1) * (3117 / 10))
  let u := sCurve xf
  let v := sCurve yf
  let ab := a + (b - a) * u
  let cd := c + (d - c) * u
  ab + (cd - ab) * v

/-- curlNoise from physics.ts lines 31-42 (same in part_003 and part_004;
part_005 uses phase 0.25 instead of 0.22): central differences of the
injected noise field at offset e = 0.75, with the time phase t * 0.22 added
to the x argument of the x-difference samples and to the y argument of the
y-difference samples, returning the perpendicular gradient (dy, -dx). -/
def curlNoise (f : ℚ → ℚ → ℚ) (x y t : ℚ) : ℚ × ℚ :=
  let e : ℚ := 75 / 100
  let n1 := f (x + e + t * (22 / 100)) y
  let n2 := f (x - e + t * (22 / 100)) y
  let n3 := f x (y + e + t * (22 / 100))
  let n4 := f x (y - e + t * (22 / 100))
  let dx := (n1 - n2) / (2 * e)
  let dy := (n3 - n4) / (2 * e)
  (dy, -dx)

/-- Central finite-difference estimate of the divergence of the curl field,
sampling each component of curlNoise at offset s along its own axis, as in
the testable property of spec section 8. -/
def divEstimate (f : ℚ → ℚ → ℚ) (s x y t : ℚ) : ℚ :=
  ((curlNoise f (x + s) y t).1 - (curlNoise f (x - s) y t).1) / (2 * s) +
  ((curlNoise f x (y + s) t).2 - (curlNoise f x (y - s) t).2) / (2 * s)

/-- Kinematic state of a Matter.js body as the physics layer reads and
writes it: position, velocity, angle, angular velocity and the per-tick
force accumulator that Body.applyForce adds into. -/
@[ext] structure PBody where
  px : ℚ
  py : ℚ
  vx : ℚ
  vy : ℚ
  angle : ℚ
  av : ℚ
  fx : ℚ
  fy : ℚ
deriving DecidableEq

/-- Matter.Body.applyForce at the body position: adds into the force
accumulator and leaves position and velocity untouched. -/
def applyForce (b : PBody) (fx fy : ℚ) : PBody :=
  { b with fx := b.fx + fx, fy := b.fy + fy }

/-- Matter.Body.setPosition. -/
def setPosition (b : PBody) (x y : ℚ) : PBody := { b with px := x, py := y }

/-- Matter.Body.setVelocity. -/
def setVelocity (b : PBody) (vx vy : ℚ) : PBody := { b with vx := vx, vy := vy }

/-- Matter.Body.setAngle. -/
def setAngle (b : PBody) (a : ℚ) : PBody := { b with angle := a }

/-- Matter.Body.setAngularVelocity. -/
def setAngularVelocity (b : PBody) (a : ℚ) : PBody := { b with av := a }

/-- V.cagePadding from physics.ts line 115. -/
def cagePadding : ℚ := 10

/-- V.wallK from physics.ts line 118 (0.000030). -/
def wallK : ℚ := 30 / 1000000

/-- V.wallDamp from physics.ts line 119 (0.000010). -/
def wallDamp : ℚ := 10 / 1000000

/-- The padded half extent of a cage: size * 0.5 - V.cagePadding
(physics.ts line 313). -/
def cageHalf (size : ℚ) : ℚ := size * (1 / 2) - cagePadding

/-- softWalls from physics.ts lines 312-350: spring force back toward the
padded cage box, velocity damping while outside it, and a hard clamp of
position plus a 0.3 velocity scale once the body is more than one further
half extent beyond the box.  The source guards the damping with
Math.sqrt(dx * dx + dy * dy) > 0, which holds exactly when
0 < dx * dx + dy * dy, the form used here. -/
def softWalls (b : PBody) (cx cy size : ℚ) : PBody :=
  let half := cageHalf size
  let left := cx - half
  let right := cx + half
  let top := cy - half
  let bottom := cy + half
  let x := b.px
  let y := b.py
  let fx1 : ℚ := if x < left then 0 + (left - x) * wallK else 0
  let fx2 : ℚ := if x > right then fx1 - (x - right) * wallK else fx1
  let fy1 : ℚ := if y < top then 0 + (top - y) * wallK else 0
  let fy2 : ℚ := if y > bottom then fy1 - (y - bottom) * wallK else fy1
  let dx := max 0 (max (left - x) (x - right))
  let dy := max 0 (max (top - y) (y - bottom))
  let fx3 : ℚ := if 0 < dx * dx + dy * dy then fx2 - b.vx * wallDamp else fx2
  let fy3 : ℚ := if 0 < dx * dx + dy * dy then fy2 - b.vy * wallDamp else fy2
  let b1 := if fx3 ≠ 0 ∨ fy3 ≠ 0 then applyForce b fx3 fy3 else b
  if x < left - half ∨ x > right + half ∨ y < top - half ∨ y > bottom + half then
    setVelocity (setPosition b1 (clampQ x left right) (clampQ y top bottom))
      (b1.vx * (3 / 10)) (b1.vy * (3 / 10))
  else b1

/-- Kinematic effect of makeBodyAt (physics.ts lines 211-250): the geometry
sampling is irrelevant to the morph claim and is omitted; the body is
created at the requested position with angle 0, then receives small random
angular and linear velocities (lines 246-247), passed here as the
parameters rav, rvx, rvy. -/
def makeBodyAt (x y rvx rvy rav : ℚ) : PBody :=
  setVelocity
    (setAngularVelocity
      { px := x, py := y, vx := 0, vy := 0, angle := 0, av := 0, fx := 0, fy := 0 } rav)
    rvx rvy

/-- The destroy-and-replace branch of morph (physics.ts lines 378-392):
record position, velocity, angular velocity and angle of the old body,
build a fresh body at that position, then restore angle, velocity and
angular velocity on the replacement. -/
def morphReplacement (b : PBody) (rvx rvy rav : ℚ) : PBody :=
  let pos := (b.px, b.py)
  let vel := (b.vx, b.vy)
  let av := b.av
  let ang := b.angle
  let nb := makeBodyAt pos.1 pos.2 rvx rvy rav
  let nb1 := setAngle nb ang
  let nb2 := setVelocity nb1 vel.1 vel.2
  setAngularVelocity nb2 av

/-- The complete rebuild path of morph: after the replacement the new body
is immediately passed through softWalls (physics.ts line 395). -/
def morphRebuild (b : PBody) (cx cy size rvx rvy rav : ℚ) : PBody :=
  softWalls (morphReplacement b rvx rvy rav) cx cy size

/-- A live body for the spatial-hash model.  The idx field plays the role
of JavaScript object identity used by the o === b test in
applyAntiClusterSpatialHash. -/
structure GBody where
  idx : ℕ
  x : ℚ
  y : ℚ
deriving DecidableEq

/-- Integer cell coordinates of a body:
Math.floor(position.x / cs), Math.floor(position.y / cs)
(part_004 lines 243-244 and 361-362). -/
def cellOf (cs : ℚ) (b : GBody) : ℤ × ℤ := (⌊b.x / cs⌋, ⌊b.y / cs⌋)

/-- One bucket of buildSpatialGrid (part_004 lines 240-251): the bodies
whose cell equals the key. -/
def gridBucket (bodies : List GBody) (cs : ℚ) (k : ℤ × ℤ) : List GBody :=
  bodies.filter (fun o => decide (cellOf cs o = k))

/-- The 3 x 3 block of cell offsets scanned by the query loops
(part_004 lines 366-368): oy runs -1..1 outside, ox runs -1..1 inside. -/
def blockOffsets : List (ℤ × ℤ) :=
  [(-1, -1), (0, -1), (1, -1), (-1, 0), (0, 0), (1, 0), (-1, 1), (0, 1), (1, 1)]

/-- All candidate neighbors examined for a body: the contents of its own
cell and the 8 surrounding cells. -/
def blockCandidates (bodies : List GBody) (cs : ℚ) (b : GBody) : List GBody :=
  blockOffsets.flatMap
    (fun d => gridBucket bodies cs ((cellOf cs b).1 + d.1, (cellOf cs b).2 + d.2))

/-- The per-pair test of applyAntiClusterSpatialHash (part_004 lines
371-377): skip the body itself, then require 0.0001 < d2 and d2 < r * r. -/
def neighborTest (r : ℚ) (b o : GBody) : Bool :=
  decide (o ≠ b) &&
  decide (1 / 10000 < (b.x - o.x) * (b.x - o.x) + (b.y - o.y) * (b.y - o.y)) &&
  decide ((b.x - o.x) * (b.x - o.x) + (b.y - o.y) * (b.y - o.y) < r * r)

/-- The neighbors of b that the spatial-hash query reports. -/
def hashNeighbors (cs r : ℚ) (bodies : List GBody) (b : GBody) : List GBody :=
  (blockCandidates bodies cs b).filter (neighborTest r b)

/-- The neighbors of b that a brute-force pairwise scan reports. -/
def bruteNeighbors (r : ℚ) (bodies : List GBody) (b : GBody) : List GBody :=
  bodies.filter (neighborTest r b)

/-- The while loop of step (physics.ts lines 646-650): while the
accumulator is at least the fixed sub-step 1/60, run one sub-step and
subtract it.  Returns the number of iterations together with the final
accumulator. -/
def runFixedLoop (a : ℚ) : ℕ × ℚ :=
  if h : (1 : ℚ) / 60 ≤ a then
    let r := runFixedLoop (a - 1 / 60)
    (r.1 + 1, r.2)
  else
    (0, a)
termination_by (⌊a * 60⌋).toNat
decreasing_by
  have h1 : (1 : ℚ) ≤ a * 60 := by
    calc (1 : ℚ) = (1 / 60) * 60 := by norm_num
    _ ≤ a * 60 := mul_le_mul_of_nonneg_right h (by norm_num)
  have h2 : ⌊(a - 1 / 60) * 60⌋ = ⌊a * 60⌋ - 1 := by
    have e : (a - 1 / 60) * 60 = a * 60 - 1 := by ring
    rw [e]
    exact_mod_cast Int.floor_sub_int (a * 60) 1
  have h3 : (1 : ℤ) ≤ ⌊a * 60⌋ := Int.le_floor.mpr (by exact_mod_cast h1)
  rw [h2]
  omega

/-- Number of fixed sub-steps a single step call executes: the incoming
delta is added to the accumulator, the accumulator is clamped to 0.24
(physics.ts lines 644-645), and the loop runs. -/
def stepSubsteps (acc dt : ℚ) : ℕ := (runFixedLoop (min (acc + dt) (24 / 100))).1

/-- The accumulator value left behind by a step call. -/
def stepRemainder (acc dt : ℚ) : ℚ := (runFixedLoop (min (acc + dt) (24 / 100))).2

/-- The palette mode enumeration (physics.ts line 44). -/
inductive ModeName where
  | ICE
  | NEON
  | VIOLET
  | MONO
deriving DecidableEq

/-- The material enumeration (physics.ts line 45). -/
inductive MaterialName where
  | GLASS
  | CERAMIC
  | METAL
deriving DecidableEq

/-- JavaScript String.prototype.toUpperCase on the ASCII names used here,
with strings modelled as lists of characters. -/
def jsToUpper (s : List Char) : List Char := s.map Char.toUpper

/-- setMode from physics.ts lines 629-632: uppercase the name and store it
when it matches one of the four modes, otherwise keep the old mode. -/
def setMode (mode : ModeName) (name : List Char) : ModeName :=
  let n := jsToUpper name
  if n = ['I', 'C', 'E'] then ModeName.ICE
  else if n = ['N', 'E', 'O', 'N'] then ModeName.NEON
  else if n = ['V', 'I', 'O', 'L', 'E', 'T'] then ModeName.VIOLET
  else if n = ['M', 'O', 'N', 'O'] then ModeName.MONO
  else mode

/-- setMaterial from physics.ts lines 633-636. -/
def setMaterial (material : MaterialName) (name : List Char) : MaterialName :=
  let n := jsToUpper name
  if n = ['G', 'L', 'A', 'S', 'S'] then MaterialName.GLASS
  else if n = ['C', 'E', 'R', 'A', 'M', 'I', 'C'] then MaterialName.CERAMIC
  else if n = ['M', 'E', 'T', 'A', 'L'] then MaterialName.METAL
  else material

/-- The mutable closure state of createPhysicsLayer (physics.ts lines
74-97 and the returned API): canvas size, normalized mouse position, mood,
mode, material, the configured body count, the integration accumulator and
the engine gravity scale.  The body list itself is not needed by any claim
settled here; rebuilds is ghost instrumentation counting calls to
rebuildAll. -/
structure PhysState where
  w : ℚ
  h : ℚ
  mx : ℚ
  my : ℚ
  mood : ℚ
  mode : ModeName
  material : MaterialName
  count : ℤ
  acc : ℚ
  gravityScale : ℚ
  rebuilds : ℕ

/-- State right after createPhysicsLayer runs: engine.gravity.scale is set
to 0 at construction (physics.ts line 85), the accumulator starts at 0
(line 468), the mouse at (0.5, 0.5), mood 0, mode ICE, material GLASS
(lines 91-96). -/
def createState (cfgCount : ℤ) : PhysState :=
  { w := 0, h := 0, mx := 1 / 2, my := 1 / 2, mood := 0, mode := ModeName.ICE,
    material := MaterialName.GLASS, count := cfgCount, acc := 0,
    gravityScale := 0, rebuilds := 0 }

/-- resize (physics.ts lines 613-621): store the dimensions and rebuild. -/
def resizeOp (st : PhysState) (W H : ℚ) : PhysState :=
  { st with w := W, h := H, rebuilds := st.rebuilds + 1 }

/-- setMouse (physics.ts lines 622-625). -/
def setMouseOp (st : PhysState) (MX MY : ℚ) : PhysState :=
  { st with mx := MX / max st.w 1, my := MY / max st.h 1 }

/-- setMood (physics.ts lines 626-628). -/
def setMoodOp (st : PhysState) (m : ℚ) : PhysState := { st with mood := clampQ m 0 1 }

/-- setMode wrapped on the layer state. -/
def setModeOp (st : PhysState) (name : List Char) : PhysState :=
  { st with mode := setMode st.mode name }

/-- setMaterial wrapped on the layer state. -/
def setMaterialOp (st : PhysState) (name : List Char) : PhysState :=
  { st with material := setMaterial st.material name }

/-- setDensity (physics.ts lines 637-642): clamp the rounded count into
[60, 240]; if the clamped value equals the current count do nothing,
otherwise store it and rebuild. -/
def setDensityOp (st : PhysState) (count : ℚ) : PhysState :=
  let c := clampZ (jsRound count) 60 240
  if c = st.count then st
  else { st with count := c, rebuilds := st.rebuilds + 1 }

/-- step (physics.ts lines 643-652) restricted to the accumulator it
mutates. -/
def stepOp (st : PhysState) (t dt : ℚ) : PhysState :=
  { st with acc := stepRemainder st.acc dt }

/-- One call of the public API returned by createPhysicsLayer. -/
inductive ApiCall where
  | resize (W H : ℚ)
  | setMouse (mx my : ℚ)
  | setMood (m : ℚ)
  | setMode (name : List Char)
  | setMaterial (name : List Char)
  | setDensity (count : ℚ)
  | step (t dt : ℚ)

/-- Dispatch one API call on the layer state. -/
def applyCall (st : PhysState) : ApiCall → PhysState
  | ApiCall.resize W H => resizeOp st W H
  | ApiCall.setMouse a c => setMouseOp st a c
  | ApiCall.setMood m => setMoodOp st m
  | ApiCall.setMode n => setModeOp st n
  | ApiCall.setMaterial n => setMaterialOp st n
  | ApiCall.setDensity c => setDensityOp st c
  | ApiCall.step t dt => stepOp st t dt

/-- Run a sequence of API calls. -/
def applyCalls (st : PhysState) (calls : List ApiCall) : PhysState :=
  calls.foldl applyCall st

/-- Per-body gravity force applied by the external Matter.js engine on each
update: mass times the gravity vector times the gravity scale.  The engine
default gravity vector is (0, 1). -/
def matterGravityForce (gx gy scale mass : ℚ) : ℚ × ℚ :=
  (mass * gx * scale, mass * gy * scale)

/-- Result of one canvas path construction: either the path commands or a
thrown JavaScript exception. -/
inductive DrawResult (α : Type) where
  | ok (val : α)
  | thrown
deriving DecidableEq

/-- The silhouette path built per body by draw (physics.ts lines 564-568):
moveTo(verts[0].x - x, verts[0].y - y) followed by lineTo for the remaining
vertices.  On an empty vertex list, verts[0] is undefined in JavaScript and
reading .x on it throws a TypeError, modelled as the thrown result. -/
def tracePath (verts : List (ℚ × ℚ)) (x y : ℚ) : DrawResult (List (ℚ × ℚ)) :=
  match verts with
  | [] => DrawResult.thrown
  | v :: rest => DrawResult.ok ((v.1 - x, v.2 - y) :: rest.map (fun p => (p.1 - x, p.2 - y)))

/-! Helper lemmas. -/

lemma jsMod1_bounds (x : ℚ) : -1 < jsMod1 x ∧ jsMod1 x < 1 := by
  unfold jsMod1
  split
  · constructor
    · have := Int.floor_le x
      linarith
    · have := Int.lt_floor_add_one x
      linarith
  · constructor
    · have := Int.ceil_lt_add_one x
      linarith
    · have := Int.le_ceil x
      linarith

lemma hashN_mem (s : ℚ → ℚ) (n : ℚ) : -1 < hashN s n ∧ hashN s n < 1 :=
  jsMod1_bounds _

lemma sCurve_unit {x : ℚ} (h0 : 0 ≤ x) (h1 : x < 1) : 0 ≤ sCurve x ∧ sCurve x ≤ 1 := by
  unfold sCurve
  constructor
  · nlinarith
  · nlinarith [sq_nonneg (1 - x)]

lemma lerp_open {a b u : ℚ} (ha1 : -1 < a) (ha2 : a < 1) (hb1 : -1 < b) (hb2 : b < 1)
    (hu1 : 0 ≤ u) (hu2 : u ≤ 1) : -1 < a + (b - a) * u ∧ a + (b - a) * u < 1 := by
  rcases eq_or_lt_of_le hu1 with h | h
  · rw [← h]
    constructor <;> linarith
  · constructor
    · nlinarith [mul_pos (show (0:ℚ) < 1 + b by linarith) h,
        mul_nonneg (show (0:ℚ) ≤ 1 + a by linarith) (show (0:ℚ) ≤ 1 - u by linarith)]
    · nlinarith [mul_pos (show (0:ℚ) < 1 - b by linarith) h,
        mul_nonneg (show (0:ℚ) ≤ 1 - a by linarith) (show (0:ℚ) ≤ 1 - u by linarith)]

/-! Claim C6. -/

/-- Claim C6, amended.  The noise hash is deterministic but returns a value
in the open interval (-1, 1), not [0, 1): the JavaScript remainder keeps
the sign of Math.sin(n) * 43758.5453123.  The bilinear interpolation of
noise2 with sCurve easing therefore also stays inside (-1, 1).  The bound
holds for every sine oracle s. -/
theorem noise_hash_bounded_open_interval (s : ℚ → ℚ) (x y : ℚ) :
    (-1 < hashN s (x * (1271 / 10) + y * (3117 / 10)) ∧
      hashN s (x * (1271 / 10) + y * (3117 / 10)) < 1) ∧
    (-1 < noise2 s x y ∧ noise2 s x y < 1) := by
  refine ⟨hashN_mem s _, ?_⟩
  have hx0 : (0 : ℚ) ≤ x - (⌊x⌋ : ℤ) := sub_nonneg.mpr (Int.floor_le x)
  have hx1 : x - ((⌊x⌋ : ℤ) : ℚ) < 1 := by
    have := Int.lt_floor_add_one x
    push_cast
    linarith
  have hy0 : (0 : ℚ) ≤ y - (⌊y⌋ : ℤ) := sub_nonneg.mpr (Int.floor_le y)
  have hy1 : y - ((⌊y⌋ : ℤ) : ℚ) < 1 := by
    have := Int.lt_floor_add_one y
    push_cast
    linarith
  obtain ⟨hu0, hu1⟩ := sCurve_unit hx0 hx1
  obtain ⟨hv0, hv1⟩ := sCurve_unit hy0 hy1
  obtain ⟨ha1, ha2⟩ := hashN_mem s (((⌊x⌋ : ℤ) : ℚ) * (1271 / 10) + ((⌊y⌋ : ℤ) : ℚ) * (3117 / 10))
  obtain ⟨hb1, hb2⟩ := hashN_mem s ((((⌊x⌋ : ℤ) : ℚ) + 1) * (1271 / 10) + ((⌊y⌋ : ℤ) : ℚ) * (3117 / 10))
  obtain ⟨hc1, hc2⟩ := hashN_mem s (((⌊x⌋ : ℤ) : ℚ) * (1271 / 10) + (((⌊y⌋ : ℤ) : ℚ) + 1) * (3117 / 10))
  obtain ⟨hd1, hd2⟩ := hashN_mem s ((((⌊x⌋ : ℤ) : ℚ) + 1) * (1271 / 10) + (((⌊y⌋ : ℤ) : ℚ) + 1) * (3117 / 10))
  have hab := lerp_open ha1 ha2 hb1 hb2 hu0 hu1
  have hcd := lerp_open hc1 hc2 hd1 hd2 hu0 hu1
  have hfin := lerp_open hab.1 hab.2 hcd.1 hcd.2 hv0 hv1
  simpa only [noise2] using hfin

/-- Claim C6, counterexample to the stated range [0, 1): for a sine oracle
that is bounded by 1 in absolute value, the hash comes out negative, and so
does the noise built on it. -/
theorem noise_hash_negative_value :
    |(-(1 / 2) : ℚ)| ≤ 1 ∧
    hashN (fun _ : ℚ => -(1 / 2)) 0 < 0 ∧
    noise2 (fun _ : ℚ => -(1 / 2)) 0 0 < 0 := by
  have hceil : (⌈(-(1 / 2) : ℚ) * (437585453123 / 10000000)⌉ : ℤ) = -21879 := by
    rw [Int.ceil_eq_iff]
    constructor <;> norm_num
  have hkey : jsMod1 ((-(1 / 2) : ℚ) * (437585453123 / 10000000)) < 0 := by
    unfold jsMod1
    rw [if_neg (by norm_num), hceil]
    norm_num
  refine ⟨by rw [abs_le]; constructor <;> norm_num, hkey, ?_⟩
  have e : noise2 (fun _ : ℚ => -(1 / 2)) 0 0 =
      jsMod1 ((-(1 / 2) : ℚ) * (437585453123 / 10000000)) := by
    simp [noise2, hashN, sCurve]
  rw [e]
  exact hkey

/-! Claim C4. -/

/-- Claim C4, amended.  curlNoise returns the perpendicular gradient of
central differences at offset 0.75, and at time t = 0 the finite-difference
divergence estimate of the resulting field (sampled at the same offset) is
exactly zero for every noise field; the counterexample shows this fails for
t different from 0 because the time phase is added asymmetrically. -/
theorem curl_divergence_zero_at_time_zero (f : ℚ → ℚ → ℚ) (x y : ℚ) :
    divEstimate f (75 / 100) x y 0 = 0 := by
  simp only [divEstimate, curlNoise]
  norm_num
  ring

/-- Claim C4, counterexample.  At t = 1 the finite-difference divergence of
the curl field of the noise f(a, b) = a * a * b is -0.44, far outside any
floating-point tolerance of zero: the phase t * 0.22 shifts the x samples
and the y samples of the underlying field differently. -/
theorem curl_divergence_nonzero_at_time_one :
    divEstimate (fun a b => a * a * b) (75 / 100) 0 0 1 = -(11 / 25) ∧
    ((-(11 / 25) : ℚ) ≠ 0) := by
  constructor
  · simp only [divEstimate, curlNoise]
    norm_num
  · norm_num

/-! Claim C3. -/

lemma runFixedLoop_count_le (n : ℕ) : ∀ a : ℚ, a < ((n : ℚ) + 1) / 60 → (runFixedLoop a).1 ≤ n := by
  induction n with
  | zero =>
    intro a ha
    unfold runFixedLoop
    rw [dif_neg (not_le.mpr (by push_cast at ha; linarith))]
  | succ n ih =>
    intro a ha
    unfold runFixedLoop
    split
    · next h =>
      have hrec : (runFixedLoop (a - 1 / 60)).1 ≤ n := by
        apply ih
        push_cast at ha ⊢
        linarith
      simpa using Nat.succ_le_succ hrec
    · exact Nat.zero_le _

/-- Claim C3.  In every step call the accumulator entering the integration
loop is clamped to at most 0.24 seconds, the loop is a terminating function
of the accumulator, and it executes at most 15 (indeed at most 14) fixed
1/60-second sub-steps no matter how large the incoming delta is. -/
theorem step_substeps_le_fifteen (acc dt : ℚ) :
    min (acc + dt) (24 / 100) ≤ 24 / 100 ∧
    stepSubsteps acc dt ≤ 14 ∧ stepSubsteps acc dt ≤ 15 := by
  have hb : stepSubsteps acc dt ≤ 14 := by
    unfold stepSubsteps
    apply runFixedLoop_count_le 14
    have := min_le_right (acc + dt) (24 / 100 : ℚ)
    push_cast
    linarith
  exact ⟨min_le_right _ _, hb, hb.trans (by norm_num)⟩

/-! Claim C8. -/

/-- Claim C8, code bug.  The per-body path construction of draw reads
vertices[0].x unconditionally, so a body with an empty vertex list makes
the render pass throw a TypeError instead of being skipped silently; a
nonempty vertex list produces a path without throwing. -/
theorem draw_throws_on_empty_vertices :
    tracePath ([] : List (ℚ × ℚ)) 0 0 = DrawResult.thrown ∧
    tracePath [((3 : ℚ), (4 : ℚ))] 0 0 ≠ DrawResult.thrown := by
  constructor
  · rfl
  · simp [tracePath]

/-! Claim C9. -/

/-- Claim C9.  setMode and setMaterial compare the uppercased name against
the known enumerations: an unrecognized name leaves the stored value
unchanged and raises nothing (both setters are total functions), and the
result depends on the name only through its uppercasing, so matching is
case-insensitive. -/
theorem setters_ignore_unrecognized (st : ModeName) (mat : MaterialName) (name : List Char)
    (hm : jsToUpper name ≠ ['I', 'C', 'E'] ∧ jsToUpper name ≠ ['N', 'E', 'O', 'N'] ∧
          jsToUpper name ≠ ['V', 'I', 'O', 'L', 'E', 'T'] ∧ jsToUpper name ≠ ['M', 'O', 'N', 'O'])
    (hq : jsToUpper name ≠ ['G', 'L', 'A', 'S', 'S'] ∧
          jsToUpper name ≠ ['C', 'E', 'R', 'A', 'M', 'I', 'C'] ∧
          jsToUpper name ≠ ['M', 'E', 'T', 'A', 'L']) :
    setMode st name = st ∧ setMaterial mat name = mat ∧
    ∀ other : List Char, jsToUpper other = jsToUpper name →
      setMode st other = setMode st name ∧ setMaterial mat other = setMaterial mat name := by
  refine ⟨?_, ?_, ?_⟩
  · simp [setMode, hm.1, hm.2.1, hm.2.2.1, hm.2.2.2]
  · simp [setMaterial, hq.1, hq.2.1, hq.2.2]
  · intro other hother
    constructor
    · simp only [setMode]
      rw [hother]
    · simp only [setMaterial]
      rw [hother]

/-- Claim C9, witness: the unrecognized name foo (in any case) is ignored
by both setters. -/
theorem setters_ignore_unrecognized_witness :
    setMode ModeName.NEON ['f', 'o', 'o'] = ModeName.NEON ∧
    setMaterial MaterialName.GLASS ['f', 'o', 'o'] = MaterialName.GLASS := by
  have h := setters_ignore_unrecognized ModeName.NEON MaterialName.GLASS ['f', 'o', 'o']
    ⟨by decide, by decide, by decide, by decide⟩ ⟨by decide, by decide, by decide⟩
  exact ⟨h.1, h.2.1⟩

/-! Claim C7. -/

lemma setDensityOp_count (st : PhysState) (x : ℚ) :
    (setDensityOp st x).count = clampZ (jsRound x) 60 240 := by
  simp only [setDensityOp]
  split
  · next h => exact h.symm
  · rfl

/-- Claim C7.  setDensity clamps the rounded requested count into
[60, 240]; the stored count always equals that clamped value; a second call
with the same argument is an exact no-op; a single call triggers exactly
one rebuild when the clamped value differs from the current count and none
when it matches (so two identical calls trigger exactly the one rebuild of
the first call, or none at all); and one call performs at most one
rebuild. -/
theorem setDensity_clamps_rebuild_once (st : PhysState) (x : ℚ) :
    (60 ≤ (setDensityOp st x).count ∧ (setDensityOp st x).count ≤ 240) ∧
    (setDensityOp st x).count = clampZ (jsRound x) 60 240 ∧
    setDensityOp (setDensityOp st x) x = setDensityOp st x ∧
    (setDensityOp st x).rebuilds =
      (if clampZ (jsRound x) 60 240 = st.count then st.rebuilds else st.rebuilds + 1) ∧
    (setDensityOp st x).rebuilds ≤ st.rebuilds + 1 := by
  have hcl : 60 ≤ clampZ (jsRound x) 60 240 ∧ clampZ (jsRound x) 60 240 ≤ 240 := by
    unfold clampZ
    omega
  refine ⟨?_, setDensityOp_count st x, ?_, ?_, ?_⟩
  · rw [setDensityOp_count]
    exact hcl
  · have h1 : setDensityOp st x = st ∨
        setDensityOp st x =
          { st with count := clampZ (jsRound x) 60 240, rebuilds := st.rebuilds + 1 } := by
      simp only [setDensityOp]
      split
      · exact Or.inl rfl
      · exact Or.inr rfl
    rcases h1 with e | e
    · rw [e]
      exact e
    · rw [e]
      simp [setDensityOp]
  · simp only [setDensityOp]
    split
    · rfl
    · rfl
  · simp only [setDensityOp]
    split
    · exact Nat.le_succ _
    · exact Nat.le_refl _

/-! Claim C10. -/

lemma applyCall_gravityScale (st : PhysState) (c : ApiCall) :
    (applyCall st c).gravityScale = st.gravityScale := by
  cases c <;>
    simp [applyCall, resizeOp, setMouseOp, setMoodOp, setModeOp, setMaterialOp,
      setDensityOp, stepOp] <;>
    split <;> rfl

lemma applyCalls_gravityScale (calls : List ApiCall) :
    ∀ st : PhysState, (applyCalls st calls).gravityScale = st.gravityScale := by
  induction calls with
  | nil => intro st; rfl
  | cons c cs ih =>
    intro st
    have : applyCalls st (c :: cs) = applyCalls (applyCall st c) cs := rfl
    rw [this, ih, applyCall_gravityScale]

/-- Claim C10.  createPhysicsLayer sets the engine gravity scale to 0 at
construction and no operation of the public API ever changes it, so after
any sequence of calls the gravity scale is still 0 and the gravity force
the engine would apply to a body of any mass is the zero vector. -/
theorem gravity_scale_always_zero (cfgCount : ℤ) (calls : List ApiCall) (mass : ℚ) :
    (applyCalls (createState cfgCount) calls).gravityScale = 0 ∧
    matterGravityForce 0 1 ((applyCalls (createState cfgCount) calls).gravityScale) mass
      = (0, 0) := by
  have h : (applyCalls (createState cfgCount) calls).gravityScale = 0 := by
    rw [applyCalls_gravityScale]
    rfl
  refine ⟨h, ?_⟩
  rw [h]
  unfold matterGravityForce
  norm_num

/-! Claim C1: component lemmas for softWalls. -/

lemma sum_sq_pos_iff (a b : ℚ) (ha : 0 ≤ a) (hb : 0 ≤ b) :
    0 < a * a + b * b ↔ 0 < a ∨ 0 < b := by
  constructor
  · intro h
    by_contra hc
    push_neg at hc
    have ha0 : a = 0 := le_antisymm hc.1 ha
    have hb0 : b = 0 := le_antisymm hc.2 hb
    rw [ha0, hb0] at h
    norm_num at h
  · rintro (h | h) <;> nlinarith

lemma softWalls_px (b : PBody) (cx cy size : ℚ) :
    (softWalls b cx cy size).px =
      if b.px < cx - cageHalf size - cageHalf size ∨ b.px > cx + cageHalf size + cageHalf size ∨
         b.py < cy - cageHalf size - cageHalf size ∨ b.py > cy + cageHalf size + cageHalf size
      then clampQ b.px (cx - cageHalf size) (cx + cageHalf size)
      else b.px := by
  simp only [softWalls, apply_ite PBody.px, setVelocity, setPosition, applyForce, ite_self]

lemma softWalls_py (b : PBody) (cx cy size : ℚ) :
    (softWalls b cx cy size).py =
      if b.px < cx - cageHalf size - cageHalf size ∨ b.px > cx + cageHalf size + cageHalf size ∨
         b.py < cy - cageHalf size - cageHalf size ∨ b.py > cy + cageHalf size + cageHalf size
      then clampQ b.py (cy - cageHalf size) (cy + cageHalf size)
      else b.py := by
  simp only [softWalls, apply_ite PBody.py, setVelocity, setPosition, applyForce, ite_self]

lemma softWalls_vx (b : PBody) (cx cy size : ℚ) :
    (softWalls b cx cy size).vx =
      if b.px < cx - cageHalf size - cageHalf size ∨ b.px > cx + cageHalf size + cageHalf size ∨
         b.py < cy - cageHalf size - cageHalf size ∨ b.py > cy + cageHalf size + cageHalf size
      then b.vx * (3 / 10)
      else b.vx := by
  simp only [softWalls, apply_ite PBody.vx, setVelocity, setPosition, applyForce, ite_self]

lemma softWalls_vy (b : PBody) (cx cy size : ℚ) :
    (softWalls b cx cy size).vy =
      if b.px < cx - cageHalf size - cageHalf size ∨ b.px > cx + cageHalf size + cageHalf size ∨
         b.py < cy - cageHalf size - cageHalf size ∨ b.py > cy + cageHalf size + cageHalf size
      then b.vy * (3 / 10)
      else b.vy := by
  simp only [softWalls, apply_ite PBody.vy, setVelocity, setPosition, applyForce, ite_self]

lemma softWalls_angle (b : PBody) (cx cy size : ℚ) :
    (softWalls b cx cy size).angle = b.angle := by
  simp only [softWalls, apply_ite PBody.angle, setVelocity, setPosition, applyForce, ite_self]

lemma softWalls_av (b : PBody) (cx cy size : ℚ) :
    (softWalls b cx cy size).av = b.av := by
  simp only [softWalls, apply_ite PBody.av, setVelocity, setPosition, applyForce, ite_self]

lemma ite_force_gate (x u v : ℚ) :
    (if u ≠ 0 ∨ v ≠ 0 then x + u else x) = x + u := by
  split
  · rfl
  · next h =>
    push_neg at h
    rw [h.1, add_zero]

lemma ite_force_gate_snd (x u v : ℚ) :
    (if u ≠ 0 ∨ v ≠ 0 then x + v else x) = x + v := by
  split
  · rfl
  · next h =>
    push_neg at h
    rw [h.2, add_zero]

lemma softWalls_fx (b : PBody) (cx cy size : ℚ) :
    (softWalls b cx cy size).fx = b.fx +
      ((if b.px < cx - cageHalf size then (cx - cageHalf size - b.px) * wallK else 0) +
       (if b.px > cx + cageHalf size then -((b.px - (cx + cageHalf size)) * wallK) else 0) +
       (if b.px < cx - cageHalf size ∨ b.px > cx + cageHalf size ∨
           b.py < cy - cageHalf size ∨ b.py > cy + cageHalf size
        then -(b.vx * wallDamp) else 0)) := by
  have hdx0 : (0 : ℚ) ≤ max 0 (max (cx - cageHalf size - b.px) (b.px - (cx + cageHalf size))) :=
    le_max_left _ _
  have hdy0 : (0 : ℚ) ≤ max 0 (max (cy - cageHalf size - b.py) (b.py - (cy + cageHalf size))) :=
    le_max_left _ _
  have hiff : (0 < max 0 (max (cx - cageHalf size - b.px) (b.px - (cx + cageHalf size))) *
        max 0 (max (cx - cageHalf size - b.px) (b.px - (cx + cageHalf size))) +
        max 0 (max (cy - cageHalf size - b.py) (b.py - (cy + cageHalf size))) *
        max 0 (max (cy - cageHalf size - b.py) (b.py - (cy + cageHalf size)))) ↔
      (b.px < cx - cageHalf size ∨ b.px > cx + cageHalf size ∨
       b.py < cy - cageHalf size ∨ b.py > cy + cageHalf size) := by
    rw [sum_sq_pos_iff _ _ hdx0 hdy0]
    simp only [lt_max_iff, lt_self_iff_false, false_or, sub_pos, gt_iff_lt, or_assoc]
  simp only [softWalls, apply_ite PBody.fx, setVelocity, setPosition, applyForce, ite_self]
  rw [ite_force_gate]
  congr 1
  simp only [hiff]
  split_ifs <;> ring

lemma softWalls_fy (b : PBody) (cx cy size : ℚ) :
    (softWalls b cx cy size).fy = b.fy +
      ((if b.py < cy - cageHalf size then (cy - cageHalf size - b.py) * wallK else 0) +
       (if b.py > cy + cageHalf size then -((b.py - (cy + cageHalf size)) * wallK) else 0) +
       (if b.px < cx - cageHalf size ∨ b.px > cx + cageHalf size ∨
           b.py < cy - cageHalf size ∨ b.py > cy + cageHalf size
        then -(b.vy * wallDamp) else 0)) := by
  have hdx0 : (0 : ℚ) ≤ max 0 (max (cx - cageHalf size - b.px) (b.px - (cx + cageHalf size))) :=
    le_max_left _ _
  have hdy0 : (0 : ℚ) ≤ max 0 (max (cy - cageHalf size - b.py) (b.py - (cy + cageHalf size))) :=
    le_max_left _ _
  have hiff : (0 < max 0 (max (cx - cageHalf size - b.px) (b.px - (cx + cageHalf size))) *
        max 0 (max (cx - cageHalf size - b.px) (b.px - (cx + cageHalf size))) +
        max 0 (max (cy - cageHalf size - b.py) (b.py - (cy + cageHalf size))) *
        max 0 (max (cy - cageHalf size - b.py) (b.py - (cy + cageHalf size)))) ↔
      (b.px < cx - cageHalf size ∨ b.px > cx + cageHalf size ∨
       b.py < cy - cageHalf size ∨ b.py > cy + cageHalf size) := by
    rw [sum_sq_pos_iff _ _ hdx0 hdy0]
    simp only [lt_max_iff, lt_self_iff_false, false_or, sub_pos, gt_iff_lt, or_assoc]
  simp only [softWalls, apply_ite PBody.fy, setVelocity, setPosition, applyForce, ite_self]
  rw [ite_force_gate_snd]
  congr 1
  simp only [hiff]
  split_ifs <;> ring

/-- Claim C1, amended.  After a softWalls containment pass with a cage of
size at least 20 (the code always uses sizes in [56, 150]): each coordinate
of the body lies within 2 * (size / 2 - 10) of the cage center, which is
the hard-clamp threshold rather than half-size plus a small tolerance;
inside the padded cage box nothing changes at all; while the body is
outside the padded box it receives exactly the spring force wallK times the
excursion on each violated side plus a wallDamp velocity damping term;
beyond the threshold the position is hard-clamped into the padded box and
the velocity is scaled by 0.3; and within the threshold position and
velocity are left untouched. -/
theorem softWalls_spring_and_clamp (b : PBody) (cx cy size : ℚ) (hsize : (20 : ℚ) ≤ size) :
    (|(softWalls b cx cy size).px - cx| ≤ 2 * cageHalf size ∧
     |(softWalls b cx cy size).py - cy| ≤ 2 * cageHalf size) ∧
    ((cx - cageHalf size ≤ b.px ∧ b.px ≤ cx + cageHalf size ∧
      cy - cageHalf size ≤ b.py ∧ b.py ≤ cy + cageHalf size) → softWalls b cx cy size = b) ∧
    ((softWalls b cx cy size).fx = b.fx +
      ((if b.px < cx - cageHalf size then (cx - cageHalf size - b.px) * wallK else 0) +
       (if b.px > cx + cageHalf size then -((b.px - (cx + cageHalf size)) * wallK) else 0) +
       (if b.px < cx - cageHalf size ∨ b.px > cx + cageHalf size ∨
           b.py < cy - cageHalf size ∨ b.py > cy + cageHalf size
        then -(b.vx * wallDamp) else 0)) ∧
     (softWalls b cx cy size).fy = b.fy +
      ((if b.py < cy - cageHalf size then (cy - cageHalf size - b.py) * wallK else 0) +
       (if b.py > cy + cageHalf size then -((b.py - (cy + cageHalf size)) * wallK) else 0) +
       (if b.px < cx - cageHalf size ∨ b.px > cx + cageHalf size ∨
           b.py < cy - cageHalf size ∨ b.py > cy + cageHalf size
        then -(b.vy * wallDamp) else 0))) ∧
    ((b.px < cx - cageHalf size - cageHalf size ∨ b.px > cx + cageHalf size + cageHalf size ∨
      b.py < cy - cageHalf size - cageHalf size ∨ b.py > cy + cageHalf size + cageHalf size) →
      ((softWalls b cx cy size).px = clampQ b.px (cx - cageHalf size) (cx + cageHalf size) ∧
       (softWalls b cx cy size).py = clampQ b.py (cy - cageHalf size) (cy + cageHalf size) ∧
       (softWalls b cx cy size).vx = b.vx * (3 / 10) ∧
       (softWalls b cx cy size).vy = b.vy * (3 / 10))) ∧
    (¬(b.px < cx - cageHalf size - cageHalf size ∨ b.px > cx + cageHalf size + cageHalf size ∨
       b.py < cy - cageHalf size - cageHalf size ∨ b.py > cy + cageHalf size + cageHalf size) →
      ((softWalls b cx cy size).px = b.px ∧ (softWalls b cx cy size).py = b.py ∧
       (softWalls b cx cy size).vx = b.vx ∧ (softWalls b cx cy size).vy = b.vy)) := by
  have hhalf : 0 ≤ cageHalf size := by
    unfold cageHalf cagePadding
    linarith
  refine ⟨⟨?_, ?_⟩, ?_, ⟨softWalls_fx b cx cy size, softWalls_fy b cx cy size⟩, ?_, ?_⟩
  · rw [softWalls_px]
    split
    · rw [abs_le]
      unfold clampQ
      have h1 : cx - cageHalf size ≤ max (cx - cageHalf size) (min (cx + cageHalf size) b.px) :=
        le_max_left _ _
      have h2 : max (cx - cageHalf size) (min (cx + cageHalf size) b.px) ≤ cx + cageHalf size :=
        max_le (by linarith) (min_le_left _ _)
      constructor <;> linarith
    · next h =>
      push_neg at h
      obtain ⟨h1, h2, h3, h4⟩ := h
      rw [abs_le]
      constructor <;> linarith
  · rw [softWalls_py]
    split
    · rw [abs_le]
      unfold clampQ
      have h1 : cy - cageHalf size ≤ max (cy - cageHalf size) (min (cy + cageHalf size) b.py) :=
        le_max_left _ _
      have h2 : max (cy - cageHalf size) (min (cy + cageHalf size) b.py) ≤ cy + cageHalf size :=
        max_le (by linarith) (min_le_left _ _)
      constructor <;> linarith
    · next h =>
      push_neg at h
      obtain ⟨h1, h2, h3, h4⟩ := h
      rw [abs_le]
      constructor <;> linarith
  · rintro ⟨hL, hR, hT, hB⟩
    have hnot : ¬(b.px < cx - cageHalf size - cageHalf size ∨
        b.px > cx + cageHalf size + cageHalf size ∨
        b.py < cy - cageHalf size - cageHalf size ∨
        b.py > cy + cageHalf size + cageHalf size) := by
      push_neg
      refine ⟨by linarith, by linarith, by linarith, by linarith⟩
    have hbox : ¬(b.px < cx - cageHalf size ∨ b.px > cx + cageHalf size ∨
        b.py < cy - cageHalf size ∨ b.py > cy + cageHalf size) := by
      push_neg
      exact ⟨hL, hR, hT, hB⟩
    ext
    · rw [softWalls_px, if_neg hnot]
    · rw [softWalls_py, if_neg hnot]
    · rw [softWalls_vx, if_neg hnot]
    · rw [softWalls_vy, if_neg hnot]
    · rw [softWalls_angle]
    · rw [softWalls_av]
    · rw [softWalls_fx, if_neg (not_lt.mpr hL), if_neg (not_lt.mpr hR), if_neg hbox]
      ring
    · rw [softWalls_fy, if_neg (not_lt.mpr hT), if_neg (not_lt.mpr hB), if_neg hbox]
      ring
  · intro hout
    exact ⟨by rw [softWalls_px, if_pos hout], by rw [softWalls_py, if_pos hout],
      by rw [softWalls_vx, if_pos hout], by rw [softWalls_vy, if_pos hout]⟩
  · intro hnot
    exact ⟨by rw [softWalls_px, if_neg hnot], by rw [softWalls_py, if_neg hnot],
      by rw [softWalls_vx, if_neg hnot], by rw [softWalls_vy, if_neg hnot]⟩

/-- Claim C1, witness for the amended theorem at a concrete cage and body. -/
theorem softWalls_spring_and_clamp_witness :
    (20 : ℚ) ≤ 150 ∧
    |(softWalls { px := 300, py := 300, vx := 5, vy := -3, angle := 0, av := 0, fx := 0, fy := 0 }
        300 300 150).px - 300| ≤ 2 * cageHalf 150 :=
  ⟨by norm_num,
    (softWalls_spring_and_clamp
      { px := 300, py := 300, vx := 5, vy := -3, angle := 0, av := 0, fx := 0, fy := 0 }
      300 300 150 (by norm_num)).1.1⟩

/-- Claim C1, counterexample to the claim as stated: a body 129 pixels from
its cage center (cage size 150, half-size 75) is left in place by the
containment pass, so after the pass its distance from the cage center
exceeds half-size plus any small tolerance (here even tolerance 50). -/
theorem softWalls_distance_exceeds_soft_bound :
    (softWalls { px := 429, py := 300, vx := 0, vy := 0, angle := 0, av := 0, fx := 0, fy := 0 }
        300 300 150).px = 429 ∧
    (150 : ℚ) * (1 / 2) + 50 <
      (softWalls { px := 429, py := 300, vx := 0, vy := 0, angle := 0, av := 0, fx := 0, fy := 0 }
        300 300 150).px - 300 := by
  have e : (softWalls
      { px := 429, py := 300, vx := 0, vy := 0, angle := 0, av := 0, fx := 0, fy := 0 }
      300 300 150).px = 429 := by
    rw [softWalls_px]
    norm_num [cageHalf, cagePadding]
  refine ⟨e, ?_⟩
  rw [e]
  norm_num

/-! Claim C5. -/

/-- Claim C5.  On the destroy-and-replace path of morph, the replacement
body has exactly the removed body's position, velocity, angular velocity
and angle at the instant of replacement (the fresh random velocities given
to the new body by makeBodyAt are overwritten by the restore calls); the
softWalls pass that follows never changes angle or angular velocity. -/
theorem morph_rebuild_preserves_motion (b : PBody) (cx cy size rvx rvy rav : ℚ) :
    (morphReplacement b rvx rvy rav).px = b.px ∧
    (morphReplacement b rvx rvy rav).py = b.py ∧
    (morphReplacement b rvx rvy rav).vx = b.vx ∧
    (morphReplacement b rvx rvy rav).vy = b.vy ∧
    (morphReplacement b rvx rvy rav).av = b.av ∧
    (morphReplacement b rvx rvy rav).angle = b.angle ∧
    (morphRebuild b cx cy size rvx rvy rav).angle = b.angle ∧
    (morphRebuild b cx cy size rvx rvy rav).av = b.av := by
  refine ⟨rfl, rfl, rfl, rfl, rfl, rfl, ?_, ?_⟩
  · unfold morphRebuild
    rw [softWalls_angle]
    rfl
  · unfold morphRebuild
    rw [softWalls_av]
    rfl

/-! Claim C2. -/

lemma floor_pair_close {cs xa xb : ℚ} (hcs : 0 < cs) (hlt : |xa - xb| < cs) :
    ⌊xb / cs⌋ - 1 ≤ ⌊xa / cs⌋ ∧ ⌊xa / cs⌋ ≤ ⌊xb / cs⌋ + 1 := by
  obtain ⟨hl, hr⟩ := abs_lt.mp hlt
  have hdiv1 : xa / cs < xb / cs + 1 := by
    have h1 : xa < xb + cs := by linarith
    have h2 : xa / cs < (xb + cs) / cs := (div_lt_div_right hcs).mpr h1
    rwa [add_div, div_self (ne_of_gt hcs)] at h2
  have hdiv2 : xb / cs < xa / cs + 1 := by
    have h1 : xb < xa + cs := by linarith
    have h2 : xb / cs < (xa + cs) / cs := (div_lt_div_right hcs).mpr h1
    rwa [add_div, div_self (ne_of_gt hcs)] at h2
  constructor
  · have h1 : ⌊xb / cs⌋ ≤ ⌊xa / cs + 1⌋ := Int.floor_le_floor (le_of_lt hdiv2)
    rw [Int.floor_add_one] at h1
    omega
  · have h1 : ⌊xa / cs⌋ ≤ ⌊xb / cs + 1⌋ := Int.floor_le_floor (le_of_lt hdiv1)
    rw [Int.floor_add_one] at h1
    omega

/-- Claim C2, amended.  Whenever the query radius r is at most the cell
size (as in the code, where repelRadius 95 is below cellSize 110, and as
for the claimed radii 50 and 95), the neighbors a body receives from the
spatial hash with its 3 x 3 cell query are exactly the neighbors of the
brute-force pairwise scan, for every body list; the counterexample shows
the equality fails for radius 130 > 110. -/
theorem spatialHash_matches_bruteforce (cs r : ℚ) (hcs : 0 < cs) (hr0 : 0 ≤ r) (hr : r ≤ cs)
    (bodies : List GBody) (b o : GBody) :
    o ∈ hashNeighbors cs r bodies b ↔ o ∈ bruteNeighbors r bodies b := by
  unfold hashNeighbors bruteNeighbors
  rw [List.mem_filter, List.mem_filter]
  constructor
  · rintro ⟨hc, hp⟩
    refine ⟨?_, hp⟩
    unfold blockCandidates at hc
    rw [List.mem_flatMap] at hc
    obtain ⟨d, _, hbk⟩ := hc
    unfold gridBucket at hbk
    exact (List.mem_filter.mp hbk).1
  · rintro ⟨hmem, hp⟩
    refine ⟨?_, hp⟩
    have hp2 := hp
    unfold neighborTest at hp2
    simp only [Bool.and_eq_true, decide_eq_true_eq] at hp2
    obtain ⟨⟨hne, hpos⟩, hlt⟩ := hp2
    have hrr : r * r ≤ cs * cs := mul_self_le_mul_self hr0 hr
    have hxsq : (b.x - o.x) * (b.x - o.x) < cs * cs := by
      nlinarith [mul_self_nonneg (b.y - o.y)]
    have hysq : (b.y - o.y) * (b.y - o.y) < cs * cs := by
      nlinarith [mul_self_nonneg (b.x - o.x)]
    have hxabs : |b.x - o.x| < cs := by
      by_contra hcon
      push_neg at hcon
      have h2 : cs * cs ≤ |b.x - o.x| * |b.x - o.x| :=
        mul_self_le_mul_self (le_of_lt hcs) hcon
      rw [abs_mul_abs_self] at h2
      linarith
    have hyabs : |b.y - o.y| < cs := by
      by_contra hcon
      push_neg at hcon
      have h2 : cs * cs ≤ |b.y - o.y| * |b.y - o.y| :=
        mul_self_le_mul_self (le_of_lt hcs) hcon
      rw [abs_mul_abs_self] at h2
      linarith
    obtain ⟨hx1, hx2⟩ := @floor_pair_close cs o.x b.x hcs (by rwa [abs_sub_comm] at hxabs)
    obtain ⟨hy1, hy2⟩ := @floor_pair_close cs o.y b.y hcs (by rwa [abs_sub_comm] at hyabs)
    unfold blockCandidates
    rw [List.mem_flatMap]
    refine ⟨(⌊o.x / cs⌋ - ⌊b.x / cs⌋, ⌊o.y / cs⌋ - ⌊b.y / cs⌋), ?_, ?_⟩
    · simp only [blockOffsets, List.mem_cons, List.not_mem_nil, or_false, Prod.mk.injEq]
      omega
    · unfold gridBucket
      rw [List.mem_filter]
      refine ⟨hmem, ?_⟩
      simp only [decide_eq_true_eq, cellOf, Prod.mk.injEq]
      constructor <;> ring

/-- Claim C2, witness: at cell size 110 and radius 95 the hash query and
the brute-force scan agree on a concrete two-body placement. -/
theorem spatialHash_matches_bruteforce_witness :
    (0 : ℚ) < 110 ∧ (0 : ℚ) ≤ 95 ∧ (95 : ℚ) ≤ 110 ∧
    ((⟨1, 160, 40⟩ : GBody) ∈ hashNeighbors 110 95 [⟨0, 100, 40⟩, ⟨1, 160, 40⟩] ⟨0, 100, 40⟩ ↔
     (⟨1, 160, 40⟩ : GBody) ∈ bruteNeighbors 95 [⟨0, 100, 40⟩, ⟨1, 160, 40⟩] ⟨0, 100, 40⟩) :=
  ⟨by norm_num, by norm_num, by norm_num,
    spatialHash_matches_bruteforce 110 95 (by norm_num) (by norm_num) (by norm_num)
      [⟨0, 100, 40⟩, ⟨1, 160, 40⟩] ⟨0, 100, 40⟩ ⟨1, 160, 40⟩⟩

/-- Claim C2, counterexample to the claim as stated: at radius 130 (one of
the radii the claim quantifies over) and cell size 110, bodies at x = 109
and x = 220 are 111 apart, within radius, but live in cells 0 and 2, so the
3 x 3 query misses the pair that the brute-force scan finds. -/
theorem spatialHash_misses_pair_at_radius_130 :
    (⟨1, 220, 0⟩ : GBody) ∈ bruteNeighbors 130 [⟨0, 109, 0⟩, ⟨1, 220, 0⟩] ⟨0, 109, 0⟩ ∧
    (⟨1, 220, 0⟩ : GBody) ∉ hashNeighbors 110 130 [⟨0, 109, 0⟩, ⟨1, 220, 0⟩] ⟨0, 109, 0⟩ := by
  constructor
  · unfold bruteNeighbors
    rw [List.mem_filter]
    constructor
    · simp
    · unfold neighborTest
      simp only [Bool.and_eq_true, decide_eq_true_eq]
      refine ⟨⟨?_, by norm_num⟩, by norm_num⟩
      intro h
      have := congrArg GBody.idx h
      norm_num at this
  · intro hmem
    unfold hashNeighbors at hmem
    rw [List.mem_filter] at hmem
    have hc := hmem.1
    unfold blockCandidates at hc
    rw [List.mem_flatMap] at hc
    obtain ⟨d, hd, hbk⟩ := hc
    unfold gridBucket at hbk
    rw [List.mem_filter] at hbk
    have hcell := hbk.2
    simp only [decide_eq_true_eq, cellOf, Prod.mk.injEq] at hcell
    have h220 : (⌊(220 : ℚ) / 110⌋ : ℤ) = 2 := by
      rw [Int.floor_eq_iff]
      constructor <;> norm_num
    have h109 : (⌊(109 : ℚ) / 110⌋ : ℤ) = 0 := by
      rw [Int.floor_eq_iff]
      constructor <;> norm_num
    have h0 : (⌊(0 : ℚ) / 110⌋ : ℤ) = 0 := by
      rw [zero_div]
      exact Int.floor_zero
    rw [h220, h109, h0] at hcell
    obtain ⟨h1, h2⟩ := hcell
    simp only [blockOffsets, List.mem_cons, List.not_mem_nil, or_false] at hd
    rcases hd with rfl | rfl | rfl | rfl | rfl | rfl | rfl | rfl | rfl <;> norm_num at h1

end Aurora
